import Mathlib

/-!
Verification of the slide-part layer (`pptx/parts/slides.py`): a shallow
embedding of `_BaseSlide`, `Slide`, `SlideCollection`, `SlideLayout` and
`SlideMaster`, together with theorems about slide renumbering, relationship
resolution on load, bounds checking, fail-fast accessors, image relationship
reuse and collection-length invariants.

External collaborators (the generic part base class, the package image
registry, the XML id-list element) are modelled at their interface boundary
as the specification describes them; every such definition carries a doc
comment starting with `Modelled from the spec:`.
-/

/-- Relationship types used by this module (`RELATIONSHIP_TYPE` constants
`RT.SLIDE`, `RT.SLIDE_LAYOUT`, `RT.SLIDE_MASTER`, `RT.IMAGE`). -/
inductive RelType where
  | slide
  | slideLayout
  | slideMaster
  | image
deriving DecidableEq

/-- A relationship: a typed, identified directed edge from one part to a
target part.  Targets are part identifiers (indices into a part store). -/
structure Relationship where
  rId : Nat
  reltype : RelType
  target : Nat
deriving DecidableEq

/-- Python-level errors surfaced by this module: `IndexError` raised by
`SlideCollection.__getitem__`, `KeyError` from resolving a missing
relationship id, and `AssertionError` from the fail-fast accessors. -/
inductive PyErr where
  | indexError (msg : String)
  | keyError
  | assertionError (msg : String)
deriving DecidableEq

/-- A shape in a slide's shape tree; only the placeholder flag matters at
this layer (placeholder cloning from a layout). -/
structure Shape where
  sid : Nat
  isPlaceholder : Bool
deriving DecidableEq

/-- The shape collection owned by a slide-like part
(`ShapeCollection(self._element.cSld.spTree, self)`). -/
structure ShapeCollection where
  shapes : List Shape
deriving DecidableEq

/-- The shape collection built from the minimal slide element
(`Slide._minimal_element` has an empty `spTree`). -/
def ShapeCollection.minimal : ShapeCollection := ⟨[]⟩

/-- Decimal digits of `n`, least significant first, computed with explicit
fuel so that it reduces in the kernel; agrees with `Nat.digits 10`. -/
def decDigitsAux : Nat → Nat → List Nat
  | _, 0 => []
  | 0, _ + 1 => []
  | fuel + 1, n + 1 => (n + 1) % 10 :: decDigitsAux fuel ((n + 1) / 10)

/-- Decimal digits of `n`, least significant first. -/
def decDigits (n : Nat) : List Nat := decDigitsAux n n

/-- Decimal rendering of a natural number, embedding Python's `'%d'`
format specifier. -/
def decRepr (n : Nat) : String :=
  if n = 0 then "0" else ((decDigits n).reverse.map Nat.digitChar).asString

/-- The part name assigned by `SlideCollection._rename_slides`:
`'/ppt/slides/slide%d.xml' % n`. -/
def slidePartname (n : Nat) : String :=
  "/ppt/slides/slide" ++ decRepr n ++ ".xml"

/-- The `Slide` part.  `partname` is `none` until the renumbering pass
assigns it; `_slidelayout` holds the part id of the bound layout. -/
structure Slide where
  _slidelayout : Option Nat
  _shapes : Option ShapeCollection
  _relationships : List Relationship
  partname : Option String
deriving DecidableEq

/-- The `SlideLayout` part. -/
structure SlideLayout where
  _slidemaster : Option Nat
  _shapes : Option ShapeCollection
  _relationships : List Relationship
deriving DecidableEq

/-- The `SlideMaster` part; `_slidelayouts` is the owned `PartCollection`
of layout part ids. -/
structure SlideMaster where
  _slidelayouts : List Nat
  _shapes : Option ShapeCollection
  _relationships : List Relationship
deriving DecidableEq

/-- Modelled from the spec: `part._add_relationship(reltype, target)`
(base-part layer, `pptx/parts/part.py`, not under `src/`) creates or
returns an existing matching relationship — dedup policy owned by the
collaborator — and a newly created relationship gets a fresh id for this
part.  Returns the updated relationship set and the relationship. -/
def add_relationship (rels : List Relationship) (rt : RelType) (target : Nat) :
    List Relationship × Relationship :=
  match rels.find? (fun r => decide (r.reltype = rt ∧ r.target = target)) with
  | some r => (rels, r)
  | none =>
    let r : Relationship := ⟨rels.length + 1, rt, target⟩
    (rels ++ [r], r)

/-- Modelled from the spec: `prs_rels.part_with_rId(rId)` (base-part layer,
not under `src/`) resolves a relationship id to its target part; a missing
id is a fatal data-consistency violation, modelled as `none`. -/
def part_with_rId (rels : List Relationship) (rId : Nat) : Option Nat :=
  (rels.find? (fun r => decide (r.rId = rId))).map (fun r => r.target)

/-- Modelled from the spec: `ShapeCollection._clone_layout_placeholders`
(`pptx/shapes/shapetree.py`, not under `src/`) clones the layout's
placeholder shapes into this slide's shape tree. -/
def clone_layout_placeholders (sc : ShapeCollection) (layout : SlideLayout) :
    ShapeCollection :=
  ⟨sc.shapes ++ ((layout._shapes.getD ⟨[]⟩).shapes.filter (fun s => s.isPlaceholder))⟩

/-- The `_BaseSlide.shapes` property: asserts the shape collection has been
assigned, then returns it. -/
def baseShapes (sh : Option ShapeCollection) : Except PyErr ShapeCollection :=
  match sh with
  | none => .error (.assertionError "_BaseSlide.shapes referenced before assigned")
  | some sc => .ok sc

/-- `Slide.__init__(slidelayout=None)`: builds the minimal element, assigns
the shape collection from its shape tree and, when a layout is supplied,
clones the layout's placeholders and records a uses-layout relationship to
it.  The layout argument carries its part id (object identity). -/
def Slide.init (slidelayout : Option (Nat × SlideLayout)) : Slide :=
  let s : Slide :=
    { _slidelayout := slidelayout.map (fun a => a.1)
      _shapes := some ShapeCollection.minimal
      _relationships := []
      partname := none }
  match slidelayout with
  | none => s
  | some (lid, l) =>
    let s := { s with _shapes := some (clone_layout_placeholders ShapeCollection.minimal l) }
    { s with _relationships := (add_relationship s._relationships RelType.slideLayout lid).1 }

/-- The `Slide.shapes` property (inherited from `_BaseSlide`). -/
def Slide.shapes (s : Slide) : Except PyErr ShapeCollection := baseShapes s._shapes

/-- The `Slide.slidelayout` property: returns the stored reference with no
guard (the caller may receive `None` when it is unresolved). -/
def Slide.slidelayout (s : Slide) : Except PyErr (Option Nat) := .ok s._slidelayout

/-- `Slide._load`: the base load assigns the relationships unmarshalled
from the package part and the shape collection built from the element's
shape tree; then every relationship whose type is uses-layout overwrites
`_slidelayout` with its target. -/
def Slide._load (s : Slide) (pkgRels : List Relationship) (sc : ShapeCollection) : Slide :=
  let s := { s with _relationships := pkgRels, _shapes := some sc }
  let resolved := s._relationships.foldl
    (fun acc r => if r.reltype = RelType.slideLayout then some r.target else acc)
    s._slidelayout
  { s with _slidelayout := resolved }

/-- `SlideLayout.__init__()`. -/
def SlideLayout.init : SlideLayout :=
  { _slidemaster := none, _shapes := none, _relationships := [] }

/-- The `SlideLayout.shapes` property (inherited from `_BaseSlide`). -/
def SlideLayout.shapes (l : SlideLayout) : Except PyErr ShapeCollection :=
  baseShapes l._shapes

/-- The `SlideLayout.slidemaster` property: asserts the master reference
has been assigned, then returns it. -/
def SlideLayout.slidemaster (l : SlideLayout) : Except PyErr Nat :=
  match l._slidemaster with
  | none => .error (.assertionError "SlideLayout.slidemaster referenced before assigned")
  | some m => .ok m

/-- `SlideLayout._load`: base load, then every relationship whose type is
uses-master overwrites `_slidemaster` with its target. -/
def SlideLayout._load (l : SlideLayout) (pkgRels : List Relationship)
    (sc : ShapeCollection) : SlideLayout :=
  let l := { l with _relationships := pkgRels, _shapes := some sc }
  let resolved := l._relationships.foldl
    (fun acc r => if r.reltype = RelType.slideMaster then some r.target else acc)
    l._slidemaster
  { l with _slidemaster := resolved }

/-- Modelled from the spec: `PartCollection._loadpart` (base-part layer,
not under `src/`) seats the loaded part in the owned collection,
preserving relationship-table enumeration order. -/
def loadpart (c : List Nat) (p : Nat) : List Nat := c ++ [p]

/-- `SlideMaster.__init__()`: the owned layout collection starts empty. -/
def SlideMaster.init : SlideMaster :=
  { _slidelayouts := [], _shapes := none, _relationships := [] }

/-- The `SlideMaster.shapes` property (inherited from `_BaseSlide`). -/
def SlideMaster.shapes (m : SlideMaster) : Except PyErr ShapeCollection :=
  baseShapes m._shapes

/-- The `SlideMaster.slidelayouts` property. -/
def SlideMaster.slidelayouts (m : SlideMaster) : List Nat := m._slidelayouts

/-- `SlideMaster._load`: base load, then every relationship whose type is
uses-layout has its target loaded into the owned layout collection, in
relationship-table enumeration order. -/
def SlideMaster._load (m : SlideMaster) (pkgRels : List Relationship)
    (sc : ShapeCollection) : SlideMaster :=
  let m := { m with _relationships := pkgRels, _shapes := some sc }
  let seated := m._relationships.foldl
    (fun acc r => if r.reltype = RelType.slideLayout then loadpart acc r.target else acc)
    m._slidelayouts
  { m with _slidelayouts := seated }

/-- The parent presentation's state consumed by `SlideCollection`: the
ordered id list (`sldIdLst`, each entry wrapping a relationship id) and the
presentation's relationship table (`prs_rels`). -/
structure Presentation where
  sldIdLst : List Nat
  _relationships : List Relationship
deriving DecidableEq

/-- A presentation together with the store of slide parts its
relationships target; a slide's part id is its index into `heap`. -/
structure PrsState where
  prs : Presentation
  heap : List Slide
deriving DecidableEq

/-- The empty presentation: no slides, no relationships. -/
def emptyState : PrsState := ⟨⟨[], []⟩, []⟩

/-- `SlideCollection.__len__`: the length of the backing id list. -/
def SlideCollection.len (st : PrsState) : Nat := st.prs.sldIdLst.length

/-- Resolution of each id-list entry to its slide part id, in id-list
order (the `_slides` iterator); `none` when some entry's relationship id
does not resolve (a fatal consistency violation in the source). -/
def resolveAll (rels : List Relationship) : List Nat → Option (List Nat)
  | [] => some []
  | rId :: rest =>
    match part_with_rId rels rId, resolveAll rels rest with
    | some sid, some sids => some (sid :: sids)
    | _, _ => none

/-- Assign `partname` to the slide at part id `sid` in the store. -/
def setPartname : List Slide → Nat → String → List Slide
  | [], _, _ => []
  | s :: rest, 0, pn => { s with partname := some pn } :: rest
  | s :: rest, j + 1, pn => s :: setPartname rest j pn

/-- The renumbering loop of `SlideCollection._rename_slides`: the slide at
0-based position `idx` gets part name `slidePartname (idx + 1)`. -/
def renameLoop (heap : List Slide) : List Nat → Nat → List Slide
  | [], _ => heap
  | sid :: rest, idx => renameLoop (setPartname heap sid (slidePartname (idx + 1))) rest (idx + 1)

/-- `SlideCollection._rename_slides`: assigns part names
`/ppt/slides/slide1.xml`, `/ppt/slides/slide2.xml`, … to the slides in
id-list order. -/
def SlideCollection.rename_slides (st : PrsState) : Option PrsState :=
  match resolveAll st.prs._relationships st.prs.sldIdLst with
  | none => none
  | some sids => some { st with heap := renameLoop st.heap sids 0 }

/-- `SlideCollection.add_slide(slidelayout)`: construct a new `Slide`
bound to the layout, register a slide relationship from the presentation
to it, append an id-list entry wrapping the fresh relationship id, then
renumber every slide.  Returns the new state and the new slide's part
id. -/
def SlideCollection.add_slide (st : PrsState) (lid : Nat) (l : SlideLayout) :
    Option (PrsState × Nat) :=
  let slide := Slide.init (some (lid, l))
  let sid := st.heap.length
  let heap := st.heap ++ [slide]
  let pr := add_relationship st.prs._relationships RelType.slide sid
  let st' : PrsState :=
    { prs := { sldIdLst := st.prs.sldIdLst ++ [pr.2.rId], _relationships := pr.1 }
      heap := heap }
  match SlideCollection.rename_slides st' with
  | none => none
  | some st'' => some (st'', sid)

/-- A sequence of `add_slide` calls, earliest first. -/
def addSlides (st : PrsState) : List (Nat × SlideLayout) → Option PrsState
  | [] => some st
  | a :: rest =>
    match SlideCollection.add_slide st a.1 a.2 with
    | some (st', _) => addSlides st' rest
    | none => none

/-- Modelled from the spec: indexing the backing ordered id list (an
element of the XML layer, not under `src/`) follows the host language's
sequence semantics — a negative index counts from the end, and an index
out of range on either side raises `IndexError`. -/
def pyIndex (len : Nat) (key : Int) : Int :=
  if key < 0 then key + len else key

def pySeqGet (l : List Nat) (key : Int) : Except PyErr Nat :=
  if h : 0 ≤ pyIndex l.length key ∧ (pyIndex l.length key).toNat < l.length then
    .ok (l.get ⟨(pyIndex l.length key).toNat, h.2⟩)
  else .error (.indexError "list index out of range")

/-- `SlideCollection.__getitem__(key)`: raises `IndexError` when
`key >= len(self._sldIdLst)`, otherwise resolves the id-list entry at
`key` to its relationship id and then to the target part. -/
def SlideCollection.getitem (st : PrsState) (key : Int) : Except PyErr Nat :=
  if (st.prs.sldIdLst.length : Int) ≤ key then
    .error (.indexError "slide index out of range")
  else
    match pySeqGet st.prs.sldIdLst key with
    | .error e => .error e
    | .ok rId =>
      match part_with_rId st.prs._relationships rId with
      | some sid => .ok sid
      | none => .error .keyError

/-- A binary image resource descriptor; the registry considers two
descriptors identical exactly when their contents are equal. -/
structure ImageFile where
  content : Nat
deriving DecidableEq

/-- Modelled from the spec: `package._images.add_image(file)`
(`pptx/presentation.py`, not under `src/`) is a content-addressed dedup
lookup/insert — it returns the image part for the descriptor, reusing the
existing image part when one with identical content is already present.
The image part is identified by its content. -/
def Images.add_image (reg : List Nat) (f : ImageFile) : List Nat × Nat :=
  if f.content ∈ reg then (reg, f.content) else (reg ++ [f.content], f.content)

/-- `_BaseSlide._add_image(file)`: look up or create the package-level
image part through the single registry lookup, then record (or reuse) an
image relationship from this part to it.  Returns the updated
(relationships, registry) state and the pair `(image, relationship)`. -/
def _add_image (rels : List Relationship) (reg : List Nat) (f : ImageFile) :
    (List Relationship × List Nat) × Nat × Relationship :=
  let ir := Images.add_image reg f
  let rr := add_relationship rels RelType.image ir.2
  ((rr.1, ir.1), ir.2, rr.2)

/-- The canonical presentation relationship for the slide with part id
`i`: relationship id `i + 1`, type slide, target `i`. -/
def canonRel (i : Nat) : Relationship := ⟨i + 1, RelType.slide, i⟩

/-- The states reachable by `add_slide` from the empty presentation: the
id list is `[1, …, n]`, the relationship table is the canonical one, and
the slide at part id `j` carries part name `slidePartname (j + 1)`. -/
def Canon (st : PrsState) : Prop :=
  st.prs.sldIdLst = (List.range st.heap.length).map (fun i => i + 1) ∧
  st.prs._relationships = (List.range st.heap.length).map canonRel ∧
  ∀ j (hj : j < st.heap.length), (st.heap.get ⟨j, hj⟩).partname = some (slidePartname (j + 1))

/-- A concrete one-slide presentation state. -/
def oneSlideState : PrsState :=
  { prs := { sldIdLst := [1], _relationships := [⟨1, RelType.slide, 0⟩] }
    heap := [{ Slide.init none with partname := some (slidePartname 1) }] }

/-! ## Properties of the decimal part-name rendering -/

theorem decDigitsAux_eq (fuel : Nat) : ∀ n, n ≤ fuel → decDigitsAux fuel n = Nat.digits 10 n := by
  induction fuel with
  | zero =>
    intro n hn
    have : n = 0 := Nat.le_zero.mp hn
    subst this
    simp [decDigitsAux]
  | succ fuel ih =>
    intro n hn
    match n with
    | 0 => simp [decDigitsAux]
    | m + 1 =>
      rw [decDigitsAux, Nat.digits_def' (by norm_num : (1:Nat) < 10) (Nat.succ_pos m)]
      congr 1
      have hdiv : (m + 1) / 10 < m + 1 := Nat.div_lt_self (Nat.succ_pos m) (by norm_num)
      exact ih _ (by omega)

theorem decDigits_eq (n : Nat) : decDigits n = Nat.digits 10 n :=
  decDigitsAux_eq n n le_rfl

theorem decDigits_inj {m n : Nat} (h : decDigits m = decDigits n) : m = n := by
  rw [decDigits_eq, decDigits_eq] at h
  have h2 := congrArg (Nat.ofDigits 10) h
  simpa [Nat.ofDigits_digits] using h2

theorem digitChar_inj_lt : ∀ a < 10, ∀ b < 10, Nat.digitChar a = Nat.digitChar b → a = b := by
  decide

theorem map_digitChar_inj (l1 : List Nat) : ∀ l2 : List Nat,
    (∀ x ∈ l1, x < 10) → (∀ x ∈ l2, x < 10) →
    l1.map Nat.digitChar = l2.map Nat.digitChar → l1 = l2 := by
  induction l1 with
  | nil =>
    intro l2 _ _ h
    cases l2 with
    | nil => rfl
    | cons b t => simp at h
  | cons a t ih =>
    intro l2 h1 h2 h
    cases l2 with
    | nil => simp at h
    | cons b t2 =>
      simp only [List.map_cons, List.cons.injEq] at h
      have hab := digitChar_inj_lt a (h1 a (by simp)) b (h2 b (by simp)) h.1
      have ht := ih t2 (fun x hx => h1 x (by simp [hx])) (fun x hx => h2 x (by simp [hx])) h.2
      rw [hab, ht]

theorem decRepr_inj {m n : Nat} (hm : 0 < m) (hn : 0 < n) (h : decRepr m = decRepr n) :
    m = n := by
  unfold decRepr at h
  rw [if_neg (by omega : ¬ m = 0), if_neg (by omega : ¬ n = 0)] at h
  have hdata : (decDigits m).reverse.map Nat.digitChar = (decDigits n).reverse.map Nat.digitChar :=
    congrArg String.data h
  have hrev := map_digitChar_inj _ _
    (fun x hx => Nat.digits_lt_base (by norm_num) (by
      rw [List.mem_reverse] at hx
      rw [decDigits_eq] at hx
      exact hx))
    (fun x hx => Nat.digits_lt_base (by norm_num) (by
      rw [List.mem_reverse] at hx
      rw [decDigits_eq] at hx
      exact hx)) hdata
  have := List.reverse_injective hrev
  exact decDigits_inj this

theorem slidePartname_inj {m n : Nat} (hm : 0 < m) (hn : 0 < n)
    (h : slidePartname m = slidePartname n) : m = n := by
  unfold slidePartname at h
  have hdata := congrArg String.data h
  rw [String.data_append, String.data_append, String.data_append, String.data_append] at hdata
  have h1 := List.append_cancel_right hdata
  have h2 := List.append_cancel_left h1
  have : decRepr m = decRepr n := by
    cases hr1 : decRepr m with
    | mk d1 =>
      cases hr2 : decRepr n with
      | mk d2 =>
        rw [hr1, hr2] at h2
        exact congrArg String.mk h2
  exact decRepr_inj hm hn this

theorem slidePartnames_nodup (k : Nat) :
    ((List.range k).map (fun i => some (slidePartname (i + 1)))).Nodup := by
  apply List.Nodup.map_on _ (List.nodup_range k)
  intro x _ y _ hxy
  have hxy2 : slidePartname (x + 1) = slidePartname (y + 1) := by
    simpa using hxy
  have := slidePartname_inj (Nat.succ_pos x) (Nat.succ_pos y) hxy2
  omega

/-! ## Properties of the canonical reachable collection states -/

theorem find?_canonRel (n i : Nat) (h : i < n) :
    ((List.range n).map canonRel).find? (fun r => decide (r.rId = i + 1)) =
      some (canonRel i) := by
  induction n with
  | zero => omega
  | succ n ih =>
    rw [List.range_succ, List.map_append, List.find?_append]
    by_cases hi : i < n
    · rw [ih hi]
      rfl
    · have hin : i = n := by omega
      subst hin
      have hnone : ((List.range i).map canonRel).find? (fun r => decide (r.rId = i + 1)) = none := by
        rw [List.find?_eq_none]
        intro r hr
        simp only [List.mem_map, List.mem_range] at hr
        obtain ⟨j, hj, rfl⟩ := hr
        simp [canonRel]
        omega
      rw [hnone]
      simp [canonRel, List.find?]

theorem part_with_rId_canon (n i : Nat) (h : i < n) :
    part_with_rId ((List.range n).map canonRel) (i + 1) = some i := by
  unfold part_with_rId
  rw [find?_canonRel n i h]
  rfl

theorem find?_canon_target_none (n : Nat) :
    ((List.range n).map canonRel).find?
      (fun r => decide (r.reltype = RelType.slide ∧ r.target = n)) = none := by
  rw [List.find?_eq_none]
  intro r hr
  simp only [List.mem_map, List.mem_range] at hr
  obtain ⟨j, hj, rfl⟩ := hr
  simp [canonRel]
  omega

theorem resolveAll_some (rels : List Relationship) (f : Nat → Nat) :
    ∀ l : List Nat, (∀ x ∈ l, part_with_rId rels x = some (f x)) →
    resolveAll rels l = some (l.map f) := by
  intro l
  induction l with
  | nil => intro _; rfl
  | cons x t ih =>
    intro h
    rw [resolveAll, h x (by simp), ih (fun y hy => h y (by simp [hy]))]
    rfl

theorem resolveAll_canonIds (k : Nat) :
    resolveAll ((List.range k).map canonRel) ((List.range k).map (fun i => i + 1)) =
      some (List.range k) := by
  rw [resolveAll_some ((List.range k).map canonRel) (fun x => x - 1)]
  · congr 1
    rw [List.map_map]
    have : ∀ x ∈ List.range k, ((fun x => x - 1) ∘ fun i => i + 1) x = id x := by
      intro x _
      simp
    rw [List.map_congr_left this, List.map_id]
  · intro x hx
    simp only [List.mem_map, List.mem_range] at hx
    obtain ⟨i, hi, rfl⟩ := hx
    rw [part_with_rId_canon k i hi]
    simp

theorem setPartname_length (heap : List Slide) : ∀ (sid : Nat) (pn : String),
    (setPartname heap sid pn).length = heap.length := by
  induction heap with
  | nil => intro sid pn; rfl
  | cons s t ih =>
    intro sid pn
    cases sid with
    | zero => rfl
    | succ j => simp [setPartname, ih]

theorem setPartname_getElem? (heap : List Slide) : ∀ (sid j : Nat) (pn : String),
    (setPartname heap sid pn)[j]? =
      if j = sid then (heap[j]?).map (fun s => { s with partname := some pn })
      else heap[j]? := by
  induction heap with
  | nil =>
    intro sid j pn
    simp [setPartname]
  | cons s t ih =>
    intro sid j pn
    cases sid with
    | zero =>
      cases j with
      | zero => simp [setPartname]
      | succ i => simp [setPartname]
    | succ k =>
      cases j with
      | zero => simp [setPartname]
      | succ i =>
        simp only [setPartname, List.getElem?_cons_succ, ih k i pn]
        by_cases h2 : i = k
        · rw [if_pos h2, if_pos (by omega)]
        · rw [if_neg h2, if_neg (by omega)]

theorem renameLoop_length (sids : List Nat) : ∀ (heap : List Slide) (idx : Nat),
    (renameLoop heap sids idx).length = heap.length := by
  induction sids with
  | nil => intro heap idx; rfl
  | cons sid rest ih =>
    intro heap idx
    rw [renameLoop, ih, setPartname_length]

theorem renameLoop_getElem? (n : Nat) : ∀ (a : Nat) (heap : List Slide) (j : Nat),
    (renameLoop heap (List.range' a n) a)[j]? =
      if a ≤ j ∧ j < a + n then
        (heap[j]?).map (fun s => { s with partname := some (slidePartname (j + 1)) })
      else heap[j]? := by
  induction n with
  | zero =>
    intro a heap j
    rw [if_neg (by omega)]
    rfl
  | succ n ih =>
    intro a heap j
    rw [List.range'_succ, renameLoop, ih (a + 1) (setPartname heap a (slidePartname (a + 1))) j,
      setPartname_getElem?]
    by_cases hja : j = a
    · subst hja
      rw [if_neg (by omega), if_pos rfl, if_pos (by omega)]
    · rw [if_neg hja]
      by_cases hin : a + 1 ≤ j ∧ j < a + 1 + n
      · rw [if_pos hin, if_pos (by omega)]
      · rw [if_neg hin, if_neg (by omega)]

theorem add_relationship_fresh (rels : List Relationship) (rt : RelType) (t : Nat)
    (h : rels.find? (fun r => decide (r.reltype = rt ∧ r.target = t)) = none) :
    add_relationship rels rt t =
      (rels ++ [⟨rels.length + 1, rt, t⟩], ⟨rels.length + 1, rt, t⟩) := by
  unfold add_relationship
  rw [h]

theorem add_relationship_found (rels : List Relationship) (rt : RelType) (t : Nat)
    (r : Relationship)
    (h : rels.find? (fun r => decide (r.reltype = rt ∧ r.target = t)) = some r) :
    add_relationship rels rt t = (rels, r) := by
  unfold add_relationship
  rw [h]

theorem canonIds_succ (k : Nat) :
    (List.range (k + 1)).map (fun i => i + 1) =
      (List.range k).map (fun i => i + 1) ++ [k + 1] := by
  rw [List.range_succ, List.map_append]
  rfl

theorem canonRels_succ (k : Nat) :
    (List.range (k + 1)).map canonRel = (List.range k).map canonRel ++ [canonRel k] := by
  rw [List.range_succ, List.map_append]
  rfl

theorem canonRel_rId (i : Nat) : (canonRel i).rId = i + 1 := rfl

theorem add_slide_eq (st : PrsState) (lid : Nat) (l : SlideLayout)
    (hIds : st.prs.sldIdLst = (List.range st.heap.length).map (fun i => i + 1))
    (hRels : st.prs._relationships = (List.range st.heap.length).map canonRel) :
    SlideCollection.add_slide st lid l =
      some ({ prs := { sldIdLst := (List.range (st.heap.length + 1)).map (fun i => i + 1),
                       _relationships := (List.range (st.heap.length + 1)).map canonRel },
              heap := renameLoop (st.heap ++ [Slide.init (some (lid, l))])
                        (List.range (st.heap.length + 1)) 0 },
            st.heap.length) := by
  have hfind : st.prs._relationships.find?
      (fun r => decide (r.reltype = RelType.slide ∧ r.target = st.heap.length)) = none := by
    rw [hRels]
    exact find?_canon_target_none st.heap.length
  have hpr := add_relationship_fresh st.prs._relationships RelType.slide st.heap.length hfind
  have hlenRels : st.prs._relationships.length = st.heap.length := by
    rw [hRels]
    simp
  rw [hlenRels, hRels] at hpr
  have hpr2 : add_relationship ((List.range st.heap.length).map canonRel) RelType.slide
      st.heap.length =
      ((List.range st.heap.length).map canonRel ++ [canonRel st.heap.length],
        canonRel st.heap.length) := hpr
  simp only [SlideCollection.add_slide, SlideCollection.rename_slides, hIds, hRels, hpr2,
    canonRel_rId]
  rw [← canonIds_succ, ← canonRels_succ]
  rw [resolveAll_canonIds (st.heap.length + 1)]

theorem renameLoop_canon_getElem? (heap : List Slide) (extra : Slide) (j : Nat)
    (hj : j < heap.length + 1) :
    (renameLoop (heap ++ [extra]) (List.range (heap.length + 1)) 0)[j]? =
      ((heap ++ [extra])[j]?).map
        (fun s => { s with partname := some (slidePartname (j + 1)) }) := by
  rw [List.range_eq_range', renameLoop_getElem? (heap.length + 1) 0 (heap ++ [extra]) j,
    if_pos (by omega)]

theorem add_slide_canon (st : PrsState) (h : Canon st) (lid : Nat) (l : SlideLayout) :
    ∃ st', SlideCollection.add_slide st lid l = some (st', st.heap.length) ∧ Canon st' ∧
      st'.heap.length = st.heap.length + 1 ∧
      st'.prs.sldIdLst = st.prs.sldIdLst ++ [st.heap.length + 1] ∧
      st'.prs._relationships = st.prs._relationships ++ [canonRel st.heap.length] ∧
      st'.heap[st.heap.length]? =
        some { Slide.init (some (lid, l)) with
               partname := some (slidePartname (st.heap.length + 1)) } := by
  obtain ⟨hIds, hRels, hNames⟩ := h
  refine ⟨_, add_slide_eq st lid l hIds hRels, ?_, ?_, ?_, ?_, ?_⟩
  · -- Canon of the new state
    have hlen : (renameLoop (st.heap ++ [Slide.init (some (lid, l))])
        (List.range (st.heap.length + 1)) 0).length = st.heap.length + 1 := by
      rw [renameLoop_length, List.length_append]
      rfl
    refine ⟨?_, ?_, ?_⟩
    · simp only [hlen]
    · simp only [hlen]
    · intro j hj
      rw [hlen] at hj
      have hget := renameLoop_canon_getElem? st.heap (Slide.init (some (lid, l))) j hj
      have hj2 : j < (st.heap ++ [Slide.init (some (lid, l))]).length := by
        simp only [List.length_append, List.length_cons, List.length_nil]
        omega
      rw [List.getElem?_eq_getElem hj2] at hget
      have hj3 : j < (renameLoop (st.heap ++ [Slide.init (some (lid, l))])
          (List.range (st.heap.length + 1)) 0).length := by
        rw [hlen]
        exact hj
      rw [List.getElem?_eq_getElem hj3] at hget
      rw [List.get_eq_getElem]
      simp only [Option.map_some', Option.some.injEq] at hget
      rw [hget]
  · rw [renameLoop_length, List.length_append]
    rfl
  · rw [hIds]
    exact canonIds_succ st.heap.length
  · rw [hRels]
    exact canonRels_succ st.heap.length
  · have hj : st.heap.length < st.heap.length + 1 := by omega
    have hget := renameLoop_canon_getElem? st.heap (Slide.init (some (lid, l)))
      st.heap.length hj
    rw [List.getElem?_concat_length] at hget
    rw [hget]
    rfl

theorem canon_empty : Canon emptyState := by
  refine ⟨rfl, rfl, ?_⟩
  intro j hj
  simp [emptyState] at hj

theorem addSlides_canon (args : List (Nat × SlideLayout)) : ∀ st : PrsState, Canon st →
    ∃ st', addSlides st args = some st' ∧ Canon st' ∧
      st'.heap.length = st.heap.length + args.length := by
  induction args with
  | nil =>
    intro st h
    exact ⟨st, rfl, h, rfl⟩
  | cons a rest ih =>
    intro st h
    obtain ⟨st1, hadd, hc1, hlen1, _⟩ := add_slide_canon st h a.1 a.2
    obtain ⟨st2, hrest, hc2, hlen2⟩ := ih st1 hc1
    refine ⟨st2, ?_, hc2, by rw [hlen2, hlen1]; simp; omega⟩
    rw [addSlides, hadd]
    exact hrest

theorem rename_slides_prs (st st' : PrsState)
    (h : SlideCollection.rename_slides st = some st') : st'.prs = st.prs := by
  unfold SlideCollection.rename_slides at h
  cases hres : resolveAll st.prs._relationships st.prs.sldIdLst with
  | none => rw [hres] at h; cases h
  | some sids =>
    rw [hres] at h
    cases h
    rfl

/-- C1: for any sequence of `add_slide` calls on an initially empty
`SlideCollection`, after the k-th call every one of the k slides in the
collection has part name `/ppt/slides/slide<i>.xml` where `<i>` is its
1-based position in id-list order, forming a contiguous sequence `1..k`
with no gaps and no duplicate names. -/
theorem add_slide_renumbering_invariant (args : List (Nat × SlideLayout)) :
    ∃ st : PrsState, addSlides emptyState args = some st ∧
      SlideCollection.len st = args.length ∧
      ∃ sids : List Nat,
        resolveAll st.prs._relationships st.prs.sldIdLst = some sids ∧
        sids.map (fun sid => (st.heap[sid]?).bind (fun s => s.partname)) =
          (List.range args.length).map (fun i => some (slidePartname (i + 1))) ∧
        (sids.map (fun sid => (st.heap[sid]?).bind (fun s => s.partname))).Nodup := by
  obtain ⟨st, hadd, hc, hlen⟩ := addSlides_canon args emptyState canon_empty
  obtain ⟨hIds, hRels, hNames⟩ := hc
  have hk : st.heap.length = args.length := by
    simpa [emptyState] using hlen
  have hmap : (List.range args.length).map
        (fun sid => (st.heap[sid]?).bind (fun s => s.partname)) =
      (List.range args.length).map (fun i => some (slidePartname (i + 1))) := by
    apply List.map_congr_left
    intro i hi
    rw [List.mem_range] at hi
    have hi2 : i < st.heap.length := by omega
    rw [List.getElem?_eq_getElem hi2]
    have hn := hNames i hi2
    rw [List.get_eq_getElem] at hn
    simpa using hn
  refine ⟨st, hadd, ?_, List.range args.length, ?_, hmap, ?_⟩
  · unfold SlideCollection.len
    rw [hIds, hk]
    simp
  · rw [hIds, hRels, hk]
    exact resolveAll_canonIds args.length
  · rw [hmap]
    exact slidePartnames_nodup args.length

/-- C2: `add_slide(layout)` constructs a new `Slide` bound to the layout
(cloning the layout's placeholders and recording a uses-layout
relationship), registers a new slide relationship from the parent
presentation to that slide under a fresh relationship id, appends an
id-list entry referencing that id, renumbers every slide, and returns the
new slide; afterwards the collection's length has increased by 1 and the
returned slide's `slidelayout` equals the layout argument. -/
theorem add_slide_steps (st : PrsState) (h : Canon st) (lid : Nat) (l : SlideLayout) :
    ∃ st' sid, SlideCollection.add_slide st lid l = some (st', sid) ∧
      sid = st.heap.length ∧
      st'.heap[sid]? = some { Slide.init (some (lid, l)) with
        partname := some (slidePartname (sid + 1)) } ∧
      (Slide.init (some (lid, l)))._slidelayout = some lid ∧
      (Slide.init (some (lid, l)))._shapes =
        some (clone_layout_placeholders ShapeCollection.minimal l) ∧
      (Slide.init (some (lid, l)))._relationships = [⟨1, RelType.slideLayout, lid⟩] ∧
      st'.prs._relationships =
        st.prs._relationships ++ [⟨SlideCollection.len st + 1, RelType.slide, sid⟩] ∧
      (∀ r ∈ st.prs._relationships, r.rId ≠ SlideCollection.len st + 1) ∧
      st'.prs.sldIdLst = st.prs.sldIdLst ++ [SlideCollection.len st + 1] ∧
      (∀ j (hj : j < st'.heap.length),
        (st'.heap.get ⟨j, hj⟩).partname = some (slidePartname (j + 1))) ∧
      SlideCollection.len st' = SlideCollection.len st + 1 ∧
      (st'.heap[sid]?).map Slide.slidelayout = some (Except.ok (some lid)) := by
  have hlenEq : SlideCollection.len st = st.heap.length := by
    unfold SlideCollection.len
    rw [h.1]
    simp
  obtain ⟨st', hadd, hc', hlen', hIds', hRels', hat⟩ := add_slide_canon st h lid l
  refine ⟨st', st.heap.length, hadd, rfl, hat, rfl, rfl, rfl, ?_, ?_, ?_, hc'.2.2, ?_, ?_⟩
  · rw [hRels', hlenEq]
    rfl
  · intro r hr
    rw [h.2.1] at hr
    simp only [List.mem_map, List.mem_range] at hr
    obtain ⟨j, hj, rfl⟩ := hr
    rw [canonRel_rId, hlenEq]
    omega
  · rw [hIds', hlenEq]
  · unfold SlideCollection.len
    rw [hIds']
    simp
  · rw [hat]
    rfl

/-- C8: the length reported by a `SlideCollection` is the length of the
backing id list owned by the parent presentation (derived, never a
separate counter), and this equality is preserved by `add_slide`, which
grows both by one. -/
theorem len_tracks_backing_id_list (st st' : PrsState) (lid sid : Nat) (l : SlideLayout)
    (h : SlideCollection.add_slide st lid l = some (st', sid)) :
    SlideCollection.len st = st.prs.sldIdLst.length ∧
    SlideCollection.len st' = st'.prs.sldIdLst.length ∧
    SlideCollection.len st' = SlideCollection.len st + 1 := by
  refine ⟨rfl, rfl, ?_⟩
  simp only [SlideCollection.add_slide] at h
  split at h
  · cases h
  · next st2 hrn =>
    rw [Option.some.injEq, Prod.mk.injEq] at h
    obtain ⟨h1, h2⟩ := h
    have hprs := rename_slides_prs _ _ hrn
    unfold SlideCollection.len
    rw [← h1, hprs]
    simp

/-! ## Relationship resolution on load -/

theorem foldl_overwrite (rt : RelType) (rels : List Relationship) : ∀ init : Option Nat,
    rels.foldl (fun acc r => if r.reltype = rt then some r.target else acc) init =
      (match rels.reverse.find? (fun r => decide (r.reltype = rt)) with
       | some r => some r.target
       | none => init) := by
  induction rels with
  | nil => intro init; rfl
  | cons r rest ih =>
    intro init
    rw [List.foldl_cons, ih, List.reverse_cons, List.find?_append]
    cases hfind : rest.reverse.find? (fun r => decide (r.reltype = rt)) with
    | some r2 => rfl
    | none =>
      by_cases hp : r.reltype = rt
      · simp [List.find?, hp]
      · simp [List.find?, hp]

/-- C3 counterexample: loading a slide whose relationship set holds two
uses-layout relationships (targets 10 then 20, in enumeration order)
resolves the layout reference to the target of the LAST one, 20, not to
the first one's target 10 as the claim states. -/
theorem load_first_wins_counterexample :
    (Slide._load (Slide.init none)
      [⟨1, RelType.slideLayout, 10⟩, ⟨2, RelType.slideLayout, 20⟩]
      ShapeCollection.minimal)._slidelayout ≠ some 10 ∧
    (Slide._load (Slide.init none)
      [⟨1, RelType.slideLayout, 10⟩, ⟨2, RelType.slideLayout, 20⟩]
      ShapeCollection.minimal)._slidelayout = some 20 := by
  decide

/-- C3 amended: when a `Slide` (resp. a `SlideLayout`) is loaded and its
relationship set contains more than one relationship of the matching type,
the resolved reference is set to the target of the LAST relationship of
that type in enumeration order (each match overwrites the previous one);
with zero matches, the previously stored reference is kept. -/
theorem load_resolves_last_matching (s : Slide) (pkgRelsS : List Relationship)
    (scS : ShapeCollection) (l : SlideLayout) (pkgRelsL : List Relationship)
    (scL : ShapeCollection) :
    (Slide._load s pkgRelsS scS)._slidelayout =
      (match pkgRelsS.reverse.find? (fun r => decide (r.reltype = RelType.slideLayout)) with
       | some r => some r.target
       | none => s._slidelayout) ∧
    (SlideLayout._load l pkgRelsL scL)._slidemaster =
      (match pkgRelsL.reverse.find? (fun r => decide (r.reltype = RelType.slideMaster)) with
       | some r => some r.target
       | none => l._slidemaster) := by
  constructor
  · simp only [Slide._load]
    exact foldl_overwrite RelType.slideLayout pkgRelsS s._slidelayout
  · simp only [SlideLayout._load]
    exact foldl_overwrite RelType.slideMaster pkgRelsL l._slidemaster

/-! ## Bounds checking -/

/-- C4 counterexample: on a one-slide collection, `__getitem__(-1)` does
not fail with an out-of-range error as the claim states — the negative
index escapes the `key >= length` guard and resolves, Python-style, to the
last slide. -/
theorem getitem_neg_index_counterexample :
    SlideCollection.getitem oneSlideState (-1) = Except.ok 0 := by
  rfl

/-- C4 amended: `__getitem__` raises `IndexError` whenever
`index ≥ length` — in particular `get(length)` fails on every collection,
including the empty one — and `get(-1)` fails on an empty collection; but
on a non-empty collection `get(-1)` is not bounds-checked: it resolves to
the same slide as `get(length - 1)`.  `get` never clamps. -/
theorem getitem_bounds (st : PrsState) (key : Int) :
    ((st.prs.sldIdLst.length : Int) ≤ key →
      SlideCollection.getitem st key = .error (.indexError "slide index out of range")) ∧
    SlideCollection.getitem st (st.prs.sldIdLst.length : Int) =
      .error (.indexError "slide index out of range") ∧
    (st.prs.sldIdLst.length = 0 →
      SlideCollection.getitem st (-1) = .error (.indexError "list index out of range")) ∧
    (0 < st.prs.sldIdLst.length →
      SlideCollection.getitem st (-1) =
        SlideCollection.getitem st ((st.prs.sldIdLst.length : Int) - 1)) := by
  refine ⟨?_, ?_, ?_, ?_⟩
  · intro hk
    unfold SlideCollection.getitem
    rw [if_pos hk]
  · unfold SlideCollection.getitem
    rw [if_pos (by omega)]
  · intro h0
    unfold SlideCollection.getitem
    rw [if_neg (by omega)]
    unfold pySeqGet
    rw [dif_neg (by unfold pyIndex; rw [if_pos (by norm_num)]; omega)]
  · intro hpos
    unfold SlideCollection.getitem
    rw [if_neg (by omega), if_neg (by omega)]
    have hidx : pyIndex st.prs.sldIdLst.length (-1) =
        pyIndex st.prs.sldIdLst.length ((st.prs.sldIdLst.length : Int) - 1) := by
      unfold pyIndex
      rw [if_pos (by norm_num), if_neg (by omega)]
      omega
    have hseq : pySeqGet st.prs.sldIdLst (-1) =
        pySeqGet st.prs.sldIdLst ((st.prs.sldIdLst.length : Int) - 1) := by
      unfold pySeqGet
      simp only [hidx]
    rw [hseq]

theorem getitem_bounds_witness :
    SlideCollection.getitem oneSlideState 1 =
      .error (.indexError "slide index out of range") ∧
    SlideCollection.getitem emptyState (-1) =
      .error (.indexError "list index out of range") ∧
    SlideCollection.getitem oneSlideState (-1) = SlideCollection.getitem oneSlideState 0 := by
  refine ⟨(getitem_bounds oneSlideState 1).1 (by decide), ?_, ?_⟩
  · exact (getitem_bounds emptyState 1).2.2.1 rfl
  · have := (getitem_bounds oneSlideState 1).2.2.2 (by decide)
    simpa using this

/-! ## Fail-fast accessors -/

/-- C5: accessing `SlideLayout.slidemaster` before the master reference
has been resolved fails fast with a precondition violation, while
accessing `Slide.slidelayout` on a slide whose layout is unresolved
returns `None` without raising; this asymmetry holds for every
`SlideLayout` and every `Slide`. -/
theorem accessor_asymmetry (l : SlideLayout) (s : Slide)
    (hl : l._slidemaster = none) (hs : s._slidelayout = none) :
    l.slidemaster =
      .error (.assertionError "SlideLayout.slidemaster referenced before assigned") ∧
    s.slidelayout = .ok none := by
  unfold SlideLayout.slidemaster Slide.slidelayout
  rw [hl, hs]
  exact ⟨rfl, rfl⟩

theorem accessor_asymmetry_witness :
    SlideLayout.init._slidemaster = none ∧
    (Slide.init none)._slidelayout = none ∧
    SlideLayout.init.slidemaster =
      .error (.assertionError "SlideLayout.slidemaster referenced before assigned") ∧
    (Slide.init none).slidelayout = .ok none :=
  ⟨rfl, rfl, (accessor_asymmetry SlideLayout.init (Slide.init none) rfl rfl).1,
    (accessor_asymmetry SlideLayout.init (Slide.init none) rfl rfl).2⟩

/-- C7: accessing the `shapes` accessor of a slide-like part before its
shape collection has been assigned fails with a precondition error rather
than returning null or a stale value; in particular `.shapes` on a
`SlideLayout` that has been constructed but not loaded raises this
error. -/
theorem shapes_fail_fast (s : Slide) (l : SlideLayout) (m : SlideMaster)
    (hs : s._shapes = none) (hl : l._shapes = none) (hm : m._shapes = none) :
    s.shapes = .error (.assertionError "_BaseSlide.shapes referenced before assigned") ∧
    l.shapes = .error (.assertionError "_BaseSlide.shapes referenced before assigned") ∧
    m.shapes = .error (.assertionError "_BaseSlide.shapes referenced before assigned") ∧
    SlideLayout.init.shapes =
      .error (.assertionError "_BaseSlide.shapes referenced before assigned") := by
  unfold Slide.shapes SlideLayout.shapes SlideMaster.shapes
  rw [hs, hl, hm]
  exact ⟨rfl, rfl, rfl, rfl⟩

theorem shapes_fail_fast_witness :
    ({ _slidelayout := none, _shapes := none, _relationships := [], partname := none } :
      Slide)._shapes = none ∧
    SlideLayout.init._shapes = none ∧
    SlideMaster.init._shapes = none ∧
    ({ _slidelayout := none, _shapes := none, _relationships := [], partname := none } :
      Slide).shapes =
      .error (.assertionError "_BaseSlide.shapes referenced before assigned") ∧
    SlideLayout.init.shapes =
      .error (.assertionError "_BaseSlide.shapes referenced before assigned") ∧
    SlideMaster.init.shapes =
      .error (.assertionError "_BaseSlide.shapes referenced before assigned") := by
  refine ⟨rfl, rfl, rfl, ?_, ?_, ?_⟩
  · exact (shapes_fail_fast
      { _slidelayout := none, _shapes := none, _relationships := [], partname := none }
      SlideLayout.init SlideMaster.init rfl rfl rfl).1
  · exact (shapes_fail_fast
      { _slidelayout := none, _shapes := none, _relationships := [], partname := none }
      SlideLayout.init SlideMaster.init rfl rfl rfl).2.1
  · exact (shapes_fail_fast
      { _slidelayout := none, _shapes := none, _relationships := [], partname := none }
      SlideLayout.init SlideMaster.init rfl rfl rfl).2.2.1

/-- C10: every `Slide` created through the constructor — whether or not a
layout is supplied — has its shape collection assigned before the
constructor returns, so `shapes` on a freshly constructed `Slide` never
raises; the unassigned-shapes error is reachable only for slide-like
parts such as `SlideLayout` and `SlideMaster` that have been constructed
but not yet loaded, and loading always assigns the collection. -/
theorem slide_init_always_assigns_shapes (arg : Option (Nat × SlideLayout))
    (pkgRels : List Relationship) (sc : ShapeCollection) :
    (∃ c, (Slide.init arg).shapes = .ok c) ∧
    SlideLayout.init.shapes =
      .error (.assertionError "_BaseSlide.shapes referenced before assigned") ∧
    SlideMaster.init.shapes =
      .error (.assertionError "_BaseSlide.shapes referenced before assigned") ∧
    (SlideLayout._load SlideLayout.init pkgRels sc).shapes = .ok sc ∧
    (SlideMaster._load SlideMaster.init pkgRels sc).shapes = .ok sc ∧
    (Slide._load (Slide.init none) pkgRels sc).shapes = .ok sc := by
  refine ⟨?_, rfl, rfl, rfl, rfl, rfl⟩
  match arg with
  | none => exact ⟨ShapeCollection.minimal, rfl⟩
  | some (lid, l) => exact ⟨clone_layout_placeholders ShapeCollection.minimal l, rfl⟩

/-! ## Master-to-layout enumeration order -/

theorem foldl_seat_filter (rels : List Relationship) : ∀ acc : List Nat,
    rels.foldl
      (fun a r => if r.reltype = RelType.slideLayout then loadpart a r.target else a) acc =
      acc ++ (rels.filter (fun r => decide (r.reltype = RelType.slideLayout))).map
        (fun r => r.target) := by
  induction rels with
  | nil => intro acc; simp
  | cons r rest ih =>
    intro acc
    rw [List.foldl_cons]
    by_cases hp : r.reltype = RelType.slideLayout
    · rw [if_pos hp, ih]
      simp [List.filter_cons, hp, loadpart]
    · rw [if_neg hp, ih]
      simp [List.filter_cons, hp]

/-- C6: loading a `SlideMaster` populates its `slidelayouts` collection
with the target of every uses-layout relationship in relationship-table
enumeration order (relationships listed in order [L2, L1, L3] yield
slidelayouts [L2, L1, L3], not sorted), and `slidelayouts` is an empty
collection, not null, when no such relationships exist. -/
theorem slidemaster_load_layout_order (pkgRels : List Relationship) (sc : ShapeCollection) :
    (SlideMaster._load SlideMaster.init pkgRels sc).slidelayouts =
      (pkgRels.filter (fun r => decide (r.reltype = RelType.slideLayout))).map
        (fun r => r.target) ∧
    (SlideMaster._load SlideMaster.init
      [⟨1, RelType.slideLayout, 2⟩, ⟨2, RelType.slideLayout, 1⟩, ⟨3, RelType.slideLayout, 3⟩]
      sc).slidelayouts = [2, 1, 3] ∧
    (SlideMaster._load SlideMaster.init [⟨1, RelType.slideMaster, 5⟩] sc).slidelayouts = [] := by
  refine ⟨?_, rfl, rfl⟩
  simp only [SlideMaster._load, SlideMaster.slidelayouts, SlideMaster.init]
  rw [foldl_seat_filter]
  simp

/-! ## Image relationship reuse -/

theorem add_relationship_idem (rels : List Relationship) (rt : RelType) (t : Nat) :
    add_relationship (add_relationship rels rt t).1 rt t =
      ((add_relationship rels rt t).1, (add_relationship rels rt t).2) := by
  cases hfind : rels.find? (fun r => decide (r.reltype = rt ∧ r.target = t)) with
  | some r =>
    rw [add_relationship_found rels rt t r hfind]
    exact add_relationship_found rels rt t r hfind
  | none =>
    rw [add_relationship_fresh rels rt t hfind]
    have hfind2 : (rels ++ [(⟨rels.length + 1, rt, t⟩ : Relationship)]).find?
        (fun r => decide (r.reltype = rt ∧ r.target = t)) =
        some ⟨rels.length + 1, rt, t⟩ := by
      rw [List.find?_append, hfind]
      simp [List.find?]
    exact add_relationship_found _ rt t _ hfind2

/-- C9: calling `_add_image` twice on the same slide-like part with
resource descriptors the package image registry considers identical
(equal content) returns the same relationship on both calls — equal
relationship id, no duplicate relationship created — and the same image
part, with each call routed through the single registry lookup. -/
theorem add_image_relationship_reuse (rels : List Relationship) (reg : List Nat)
    (f1 f2 : ImageFile) (h : f1.content = f2.content) :
    (_add_image (_add_image rels reg f1).1.1 (_add_image rels reg f1).1.2 f2).2.2 =
      (_add_image rels reg f1).2.2 ∧
    (_add_image (_add_image rels reg f1).1.1 (_add_image rels reg f1).1.2 f2).2.1 =
      (_add_image rels reg f1).2.1 ∧
    (_add_image (_add_image rels reg f1).1.1 (_add_image rels reg f1).1.2 f2).1.1 =
      (_add_image rels reg f1).1.1 := by
  have hmem1 : f1.content ∈ (Images.add_image reg f1).1 := by
    unfold Images.add_image
    by_cases hm : f1.content ∈ reg
    · rw [if_pos hm]
      exact hm
    · rw [if_neg hm]
      simp
  have hfst : (Images.add_image reg f1).2 = f1.content := by
    unfold Images.add_image
    by_cases hm : f1.content ∈ reg
    · rw [if_pos hm]
    · rw [if_neg hm]
  have hsecond : ∀ reg2 : List Nat, f1.content ∈ reg2 →
      Images.add_image reg2 f2 = (reg2, f1.content) := by
    intro reg2 hm2
    unfold Images.add_image
    rw [← h, if_pos hm2]
  refine ⟨?_, ?_, ?_⟩ <;>
    simp only [_add_image, hsecond _ hmem1, hfst, add_relationship_idem]

theorem add_image_relationship_reuse_witness :
    (⟨5⟩ : ImageFile).content = (⟨5⟩ : ImageFile).content ∧
    (_add_image (_add_image [] [] ⟨5⟩).1.1 (_add_image [] [] ⟨5⟩).1.2 ⟨5⟩).2.2 =
      (_add_image [] [] ⟨5⟩).2.2 ∧
    (_add_image (_add_image [] [] ⟨5⟩).1.1 (_add_image [] [] ⟨5⟩).1.2 ⟨5⟩).1.1 =
      (_add_image [] [] ⟨5⟩).1.1 :=
  ⟨rfl, (add_image_relationship_reuse [] [] ⟨5⟩ ⟨5⟩ rfl).1,
    (add_image_relationship_reuse [] [] ⟨5⟩ ⟨5⟩ rfl).2.2⟩

theorem add_slide_steps_witness :
    Canon emptyState ∧
    (∃ st' sid, SlideCollection.add_slide emptyState 7 SlideLayout.init = some (st', sid) ∧
      SlideCollection.len st' = SlideCollection.len emptyState + 1 ∧
      (st'.heap[sid]?).map Slide.slidelayout = some (Except.ok (some 7))) := by
  refine ⟨canon_empty, ?_⟩
  obtain ⟨st', sid, hadd, _, _, _, _, _, _, _, _, _, hlen, hsl⟩ :=
    add_slide_steps emptyState canon_empty 7 SlideLayout.init
  exact ⟨st', sid, hadd, hlen, hsl⟩

theorem len_tracks_backing_id_list_witness :
    SlideCollection.add_slide emptyState 7 SlideLayout.init =
      some ({ prs := { sldIdLst := [1], _relationships := [⟨1, RelType.slide, 0⟩] },
              heap := [{ _slidelayout := some 7, _shapes := some ⟨[]⟩,
                         _relationships := [⟨1, RelType.slideLayout, 7⟩],
                         partname := some (slidePartname 1) }] }, 0) ∧
    SlideCollection.len
      ({ prs := { sldIdLst := [1], _relationships := [⟨1, RelType.slide, 0⟩] },
         heap := [{ _slidelayout := some 7, _shapes := some ⟨[]⟩,
                    _relationships := [⟨1, RelType.slideLayout, 7⟩],
                    partname := some (slidePartname 1) }] } : PrsState) =
      SlideCollection.len emptyState + 1 := by
  have h : SlideCollection.add_slide emptyState 7 SlideLayout.init =
      some ({ prs := { sldIdLst := [1], _relationships := [⟨1, RelType.slide, 0⟩] },
              heap := [{ _slidelayout := some 7, _shapes := some ⟨[]⟩,
                         _relationships := [⟨1, RelType.slideLayout, 7⟩],
                         partname := some (slidePartname 1) }] }, 0) := by rfl
  exact ⟨h, (len_tracks_backing_id_list emptyState _ 7 0 SlideLayout.init h).2.2⟩

theorem slidePartname_one : slidePartname 1 = "/ppt/slides/slide1.xml" := by decide

theorem slidePartname_twelve : slidePartname 12 = "/ppt/slides/slide12.xml" := by decide
